import Mathlib

/-!
Shallow embedding of `src/app.py` (DataDog Error Viewer).

The embedding covers the core the specification describes: the pydantic
data model (`DataDogMessage` and its nested parts, `ErrorData`), the CSV
ingestion loop `ErrorTracker._load_errors`, the persistence loader
`ErrorTracker._load_persistence`, the persistence writer
`ErrorTracker._save_persistence`, and `ErrorTracker.toggle_error_status`.

Modelling conventions:
- External library calls are abstracted as parameters: `datetime.fromisoformat`
  becomes a parameter `pts : String → Option Int` (timestamps are modelled as
  integers, keeping only their total order, which is all the code uses), and
  the JSON text parser inside `pydantic_core` / `model_validate_json` becomes
  `pj : String → Option Json`.  Schema validation against the pydantic models
  declared in the source is embedded explicitly (`DataDogMessage.validate`):
  the models have only required fields and no defaults, so validation fails
  exactly when a required field is absent or has the wrong shape.
- `csv.reader` output is modelled as the list of rows, each row a list of
  cell strings.  A missing CSV file is `none`.
- Python `dict` is modelled as an association list with insertion-order
  semantics: `dictUpdate` replaces in place or appends, `dictLookup` reads.
- `print` warnings are modelled as a structured `Warning` log (the code's
  messages interpolate library exception text, which is external).
- The persisted JSON file content is abstracted by a parameter
  `parse : String → Option PersistJson`; a successfully parsed dictionary
  carries boolean values, the type `_save_persistence` writes.
- File-system effects in `_save_persistence` are modelled by a
  `WriteOutcome`: the write succeeds, raises an `IOError` (which the code
  catches and logs), or raises some other exception (which propagates).
-/

namespace DatadogViewer

/-- A JSON value as produced by parsing the embedded payload of a CSV row.
Only the shapes the schema distinguishes are kept: strings, objects, and
everything else. -/
inductive Json where
  | str (s : String)
  | obj (fields : List (String × Json))
  | other
deriving Repr

/-- Field access on a JSON object; `none` on a non-object or a missing key. -/
def Json.get (j : Json) (k : String) : Option Json :=
  match j with
  | .obj fields => fields.lookup k
  | _ => none

/-- The string carried by a JSON string value. -/
def Json.asStr : Json → Option String
  | .str s => some s
  | _ => none

/-- pydantic model `TestSource` (`class TestSource(BaseModel): file: str`). -/
structure TestSource where
  file : String
deriving Repr, DecidableEq

/-- pydantic model `TestInfo` (`source: TestSource`, `name: str`). -/
structure TestInfo where
  source : TestSource
  name : String
deriving Repr, DecidableEq

/-- pydantic model `ErrorInfo` (`message: str`). -/
structure ErrorInfo where
  message : String
deriving Repr, DecidableEq

/-- pydantic model `DataDogMessage` (`test: TestInfo`, `error: ErrorInfo`). -/
structure DataDogMessage where
  test : TestInfo
  error : ErrorInfo
deriving Repr, DecidableEq

/-- Validation of a JSON value against `TestSource`: the field `file` is
required and must be a string; there is no default. -/
def TestSource.validate (j : Json) : Option TestSource := do
  let f ← j.get "file"
  let s ← f.asStr
  pure ⟨s⟩

/-- Validation against `TestInfo`: requires `source` (a `TestSource` object)
and `name` (a string). -/
def TestInfo.validate (j : Json) : Option TestInfo := do
  let src ← j.get "source"
  let source ← TestSource.validate src
  let n ← j.get "name"
  let name ← n.asStr
  pure ⟨source, name⟩

/-- Validation against `ErrorInfo`: requires `message` (a string). -/
def ErrorInfo.validate (j : Json) : Option ErrorInfo := do
  let m ← j.get "message"
  let s ← m.asStr
  pure ⟨s⟩

/-- Validation against `DataDogMessage` — the embedding of
`DataDogMessage.model_validate_json` after the JSON text has been parsed:
requires `test` and `error` with their nested required fields. -/
def DataDogMessage.validate (j : Json) : Option DataDogMessage := do
  let t ← j.get "test"
  let test ← TestInfo.validate t
  let e ← j.get "error"
  let error ← ErrorInfo.validate e
  pure ⟨test, error⟩

/-- pydantic model `ErrorData`: one catalog record. -/
structure ErrorData where
  id : String
  file : String
  test_name : String
  error_summary : String
  error_full : String
  addressed : Bool
  timestamp : Int
deriving Repr, DecidableEq

/-- The known-noise signature filtered during ingestion
(`"RuntimeError: Working outside of application context."`). -/
def noiseSignature : String := "RuntimeError: Working outside of application context."

/-- Substring test on character lists: Python `pat in s`. -/
def charsContain (pat : List Char) : List Char → Bool
  | [] => pat.isEmpty
  | c :: rest => pat.isPrefixOf (c :: rest) || charsContain pat rest

/-- Python `pat in s` for strings. -/
def strContains (s pat : String) : Bool := charsContain pat.toList s.toList

/-- Summary derivation: `error_message.split("\n")[0] if error_message else "No error message"`. -/
def summaryOf (msg : String) : String :=
  if msg = "" then "No error message"
  else ⟨msg.toList.takeWhile (fun c => c != '\n')⟩

/-- Python `dict` read: first (unique) binding of the key. -/
def dictLookup {β : Type} : List (String × β) → String → Option β
  | [], _ => none
  | (k, v) :: rest, a => if k = a then some v else dictLookup rest a

/-- Python `dict` write: replace the existing binding in place, else append. -/
def dictUpdate {β : Type} : List (String × β) → String → β → List (String × β)
  | [], k, v => [(k, v)]
  | (k', v') :: rest, k, v =>
      if k' = k then (k', v) :: rest else (k', v') :: dictUpdate rest k v

/-- Structured rendering of the `print` diagnostics of `app.py`. -/
inductive Warning where
  | csvFileNotFound
  | badTimestamp (line : Nat) (cell : String)
  | badJson (line : Nat) (cell : String)
  | persistenceNotDict
  | persistenceInvalidJson
  | persistenceLoadFailed (msg : String)
  | saveFailed (msg : String)
deriving Repr, DecidableEq

/-- Outcome of the body of the ingestion loop on one CSV row, before the
merge into the working dictionary. -/
inductive RowOutcome where
  | tooShort
  | badTimestamp (cell : String)
  | badJson (cell : String)
  | noise
  | ok (d : ErrorData)
deriving Repr

/-- The per-row part of `ErrorTracker._load_errors`: skip rows with fewer
than two cells; parse the timestamp (abstracted by `pts`); parse and
validate the JSON payload (parsing abstracted by `pj`, validation embedded);
filter the noise signature; build the `ErrorData` record, with `addressed`
looked up identity-keyed in the persisted mapping. -/
def processRow (pts : String → Option Int) (pj : String → Option Json)
    (addressed : List (String × Bool)) (row : List String) : RowOutcome :=
  match row with
  | c0 :: c1 :: _ =>
    match pts c0 with
    | none => .badTimestamp c0
    | some ts =>
      match (pj c1).bind DataDogMessage.validate with
      | none => .badJson c1
      | some msg =>
        if strContains msg.error.message noiseSignature then .noise
        else
          let error_id := msg.test.source.file ++ "::" ++ msg.test.name
          .ok
            { id := error_id
              file := msg.test.source.file
              test_name := msg.test.name
              error_summary := summaryOf msg.error.message
              error_full := msg.error.message
              addressed := (dictLookup addressed error_id).getD false
              timestamp := ts }
  | _ => .tooShort

/-- The identity contributed by a row that passes every check (shape,
timestamp, schema, noise filter), if any. -/
def rowId (pts : String → Option Int) (pj : String → Option Json)
    (addressed : List (String × Bool)) (row : List String) : Option String :=
  match processRow pts pj addressed row with
  | .ok d => some d.id
  | _ => none

/-- The loop of `ErrorTracker._load_errors` over `enumerate(reader, start=2)`:
accumulates the working dictionary keyed by identity (keeping, per identity,
the record with the strictly greatest timestamp seen so far) and the warning
log.  Note the loop runs over every row of the file: the source never skips
a header row. -/
def load_errors_loop (pts : String → Option Int) (pj : String → Option Json)
    (addressed : List (String × Bool)) :
    List (List String) → Nat → List (String × ErrorData) → List Warning →
      List (String × ErrorData) × List Warning
  | [], _, dict, logs => (dict, logs)
  | row :: rest, n, dict, logs =>
    match processRow pts pj addressed row with
    | .tooShort => load_errors_loop pts pj addressed rest (n + 1) dict logs
    | .badTimestamp c =>
        load_errors_loop pts pj addressed rest (n + 1) dict
          (logs ++ [Warning.badTimestamp n c])
    | .badJson c =>
        load_errors_loop pts pj addressed rest (n + 1) dict
          (logs ++ [Warning.badJson n c])
    | .noise => load_errors_loop pts pj addressed rest (n + 1) dict logs
    | .ok d =>
      let replace :=
        match dictLookup dict d.id with
        | none => true
        | some old => decide (d.timestamp > old.timestamp)
      load_errors_loop pts pj addressed rest (n + 1)
        (if replace then dictUpdate dict d.id d else dict) logs

/-- Ordinal (code-point) comparison of character lists, the order Python
uses to sort strings. -/
def charListLe : List Char → List Char → Bool
  | [], _ => true
  | _ :: _, [] => false
  | a :: as, b :: bs =>
    if a.toNat < b.toNat then true
    else if b.toNat < a.toNat then false
    else charListLe as bs

/-- Ordinal/lexicographic `≤` on strings. -/
def strLeB (a b : String) : Bool := charListLe a.toList b.toList

/-- One step of sorting the catalog by `id` (`sorted(..., key=lambda x: x.id)`). -/
def insertSorted (d : ErrorData) : List ErrorData → List ErrorData
  | [] => [d]
  | e :: rest =>
      if strLeB d.id e.id then d :: e :: rest else e :: insertSorted d rest

/-- Sort a record list ascending by `id`. -/
def sortErrors (l : List ErrorData) : List ErrorData := l.foldr insertSorted []

/-- Embedding of `ErrorTracker._load_errors`: `none` models a missing CSV
file (warn, empty catalog); otherwise run the loop from line number 2 and
sort the values of the working dictionary by identity. -/
def load_errors (pts : String → Option Int) (pj : String → Option Json)
    (addressed : List (String × Bool)) (csvRows : Option (List (List String))) :
    List ErrorData × List Warning :=
  match csvRows with
  | none => ([], [Warning.csvFileNotFound])
  | some rows =>
    let out := load_errors_loop pts pj addressed rows 2 [] []
    (sortErrors (out.1.map Prod.snd), out.2)

/-- Parse outcome for the persisted-state file content, as produced by
`pydantic_core.from_json` followed by the `isinstance(parsed_data, dict)`
check: a JSON object (whose values are the booleans `_save_persistence`
writes), or some other JSON value. -/
inductive PersistJson where
  | obj (m : List (String × Bool))
  | nonObj
deriving Repr

/-- Observable state of the persisted-state file when `_load_persistence`
runs: absent, readable with some content, or raising on open/read (the
`except Exception` path). -/
inductive FileRead where
  | absent
  | readable (content : String)
  | unreadable (msg : String)
deriving Repr

/-- Python truthiness of `data.strip()`: the content has a non-whitespace
character. -/
def strNonBlank (s : String) : Bool := s.toList.any (fun c => !c.isWhitespace)

/-- Embedding of `ErrorTracker._load_persistence` (JSON text parsing
abstracted by `parse`).  Total by construction: every branch, including the
missing-file, unreadable-file, invalid-JSON and non-dictionary branches,
returns a mapping and a warning log instead of raising. -/
def load_persistence (parse : String → Option PersistJson) :
    FileRead → List (String × Bool) × List Warning
  | .absent => ([], [])
  | .unreadable m => ([], [Warning.persistenceLoadFailed m])
  | .readable content =>
    if strNonBlank content then
      match parse content with
      | some (.obj m) => (m, [])
      | some .nonObj => ([], [Warning.persistenceNotDict])
      | none => ([], [Warning.persistenceInvalidJson])
    else ([], [])

/-- Outcome of the file write inside `_save_persistence`: success, an
`IOError`, or an exception of any other class. -/
inductive WriteOutcome where
  | ok
  | ioError (msg : String)
  | otherError (msg : String)
deriving Repr

/-- Embedding of `ErrorTracker._save_persistence`: the `try/except IOError`
catches an `IOError`, prints, and returns normally; any other exception
propagates (`Except.error`). -/
def save_persistence : WriteOutcome → Except String (List Warning)
  | .ok => .ok []
  | .ioError m => .ok [Warning.saveFailed m]
  | .otherError m => .error m

/-- In-memory state of `ErrorTracker` relevant to toggling: the record list
and the addressed-flag dictionary. -/
structure TrackerState where
  errors : List ErrorData
  addressed_errors : List (String × Bool)
deriving Repr, DecidableEq

/-- The new flag value computed by `toggle_error_status`: negate the stored
flag when the identity is present, else `True`. -/
def toggledValue (addressed : List (String × Bool)) (error_id : String) : Bool :=
  match dictLookup addressed error_id with
  | some old => !old
  | none => true

/-- Update of the in-memory record list inside `toggle_error_status`: set
`addressed` on the first record with the given id (the loop breaks), and do
nothing when no record matches. -/
def markAddressed (error_id : String) (b : Bool) : List ErrorData → List ErrorData
  | [] => []
  | e :: rest =>
      if e.id = error_id then { e with addressed := b } :: rest
      else e :: markAddressed error_id b rest

/-- Embedding of `ErrorTracker.toggle_error_status`: mutate the dictionary
and the record list, then call `_save_persistence` (outcome modelled by
`w`) and return the stored flag.  The mutations happen before the save, so
they are in effect whether or not the save raises. -/
def toggle_error_status (st : TrackerState) (w : WriteOutcome) (error_id : String) :
    TrackerState × List Warning × Except String Bool :=
  let newVal := toggledValue st.addressed_errors error_id
  let st' : TrackerState :=
    { errors := markAddressed error_id newVal st.errors
      addressed_errors := dictUpdate st.addressed_errors error_id newVal }
  match save_persistence w with
  | .ok logs => (st', logs, .ok newVal)
  | .error m => (st', [], .error m)

/-! Concrete timestamp and JSON parsers and payloads, used to evaluate the
embedded code on explicit inputs. -/

/-- Concrete timestamp parser for explicit inputs. -/
def tsW : String → Option Int := fun s =>
  if s = "t1" then some 1 else if s = "t2" then some 2
  else if s = "t1b" then some 1 else none

/-- A schema-valid payload: file `a.py`, test `test_x`, two-line message. -/
def payload1 : Json :=
  Json.obj [("test", Json.obj [("source", Json.obj [("file", Json.str "a.py")]),
    ("name", Json.str "test_x")]),
    ("error", Json.obj [("message", Json.str "Err1\nmore")])]

/-- A schema-valid payload for the same identity with message `Err2`. -/
def payload2 : Json :=
  Json.obj [("test", Json.obj [("source", Json.obj [("file", Json.str "a.py")]),
    ("name", Json.str "test_x")]),
    ("error", Json.obj [("message", Json.str "Err2")])]

/-- A schema-valid payload whose message contains the noise signature. -/
def payloadNoise : Json :=
  Json.obj [("test", Json.obj [("source", Json.obj [("file", Json.str "a.py")]),
    ("name", Json.str "test_x")]),
    ("error", Json.obj [("message",
      Json.str "boom RuntimeError: Working outside of application context. end")])]

/-- A payload whose `test.source` object is missing the required `file`
field. -/
def payloadMissingFile : Json :=
  Json.obj [("test", Json.obj [("source", Json.obj []),
    ("name", Json.str "test_x")]),
    ("error", Json.obj [("message", Json.str "boom")])]

/-- A schema-valid payload for the same identity with message `Err3`. -/
def payload3 : Json :=
  Json.obj [("test", Json.obj [("source", Json.obj [("file", Json.str "a.py")]),
    ("name", Json.str "test_x")]),
    ("error", Json.obj [("message", Json.str "Err3")])]

/-- Concrete JSON text parser for explicit inputs. -/
def pjW : String → Option Json := fun s =>
  if s = "p1" then some payload1 else if s = "p2" then some payload2
  else if s = "p3" then some payload3
  else if s = "pnoise" then some payloadNoise
  else if s = "pmiss" then some payloadMissingFile else none

/-- The record the ingestion loop builds from the cells `t1`, `p1` under
`tsW`/`pjW` with an empty persisted mapping. -/
def record1 : ErrorData :=
  { id := "a.py::test_x", file := "a.py", test_name := "test_x",
    error_summary := "Err1", error_full := "Err1\nmore",
    addressed := false, timestamp := 1 }

/-- The record built from the cells `t2`, `p2`. -/
def record2 : ErrorData :=
  { id := "a.py::test_x", file := "a.py", test_name := "test_x",
    error_summary := "Err2", error_full := "Err2",
    addressed := false, timestamp := 2 }

/-- The record built from the cells `t1b`, `p3`. -/
def record3 : ErrorData :=
  { id := "a.py::test_x", file := "a.py", test_name := "test_x",
    error_summary := "Err3", error_full := "Err3",
    addressed := false, timestamp := 1 }

/-! Helper lemmas about the dictionary model. -/

/-- Reading back the key just written. -/
theorem dictLookup_update_self {β : Type} (d : List (String × β)) (k : String) (v : β) :
    dictLookup (dictUpdate d k v) k = some v := by
  induction d with
  | nil => simp [dictUpdate, dictLookup]
  | cons p rest ih =>
    obtain ⟨k', v'⟩ := p
    by_cases h : k' = k
    · subst h; simp [dictUpdate, dictLookup]
    · simp [dictUpdate, dictLookup, h, ih]

/-- Keys after an update: the written key together with the old keys. -/
theorem mem_keys_dictUpdate {β : Type} (d : List (String × β)) (k : String) (v : β)
    (a : String) :
    a ∈ (dictUpdate d k v).map Prod.fst ↔ a = k ∨ a ∈ d.map Prod.fst := by
  induction d with
  | nil => simp [dictUpdate]
  | cons p rest ih =>
    obtain ⟨k', v'⟩ := p
    by_cases h : k' = k
    · subst h; simp [dictUpdate]
    · simp [dictUpdate, h, ih]; tauto

/-- An update never introduces a duplicate key. -/
theorem nodup_keys_dictUpdate {β : Type} (d : List (String × β)) (k : String) (v : β)
    (h : (d.map Prod.fst).Nodup) : ((dictUpdate d k v).map Prod.fst).Nodup := by
  induction d with
  | nil => simp [dictUpdate]
  | cons p rest ih =>
    obtain ⟨k', v'⟩ := p
    simp only [List.map_cons, List.nodup_cons] at h
    by_cases hk : k' = k
    · subst hk
      simpa [dictUpdate] using h
    · simp only [dictUpdate, if_neg hk, List.map_cons, List.nodup_cons]
      refine ⟨?_, ih h.2⟩
      intro hmem
      rcases (mem_keys_dictUpdate rest k v k').1 hmem with rfl | hm
      exacts [hk rfl, h.1 hm]

/-- Every pair of an updated dictionary is the written pair or an old pair. -/
theorem mem_dictUpdate {β : Type} {d : List (String × β)} {k : String} {v : β}
    {p : String × β} (h : p ∈ dictUpdate d k v) : p = (k, v) ∨ p ∈ d := by
  induction d with
  | nil =>
    simp only [dictUpdate, List.mem_singleton] at h
    exact Or.inl h
  | cons q rest ih =>
    obtain ⟨k', v'⟩ := q
    by_cases hk : k' = k
    · rw [show dictUpdate ((k', v') :: rest) k v = (k', v) :: rest from by
        simp [dictUpdate, hk]] at h
      rcases List.mem_cons.1 h with h | h
      · left; rw [h, hk]
      · exact Or.inr (List.mem_cons_of_mem _ h)
    · rw [show dictUpdate ((k', v') :: rest) k v = (k', v') :: dictUpdate rest k v from by
        simp [dictUpdate, hk]] at h
      rcases List.mem_cons.1 h with h | h
      · right; rw [h]; exact List.mem_cons_self _ _
      · rcases ih h with h1 | h2
        exacts [Or.inl h1, Or.inr (List.mem_cons_of_mem _ h2)]

/-- A key is present exactly when lookup succeeds. -/
theorem dictLookup_isSome_iff {β : Type} (d : List (String × β)) (k : String) :
    (dictLookup d k).isSome = true ↔ k ∈ d.map Prod.fst := by
  induction d with
  | nil => simp [dictLookup]
  | cons p rest ih =>
    obtain ⟨k', v'⟩ := p
    by_cases h : k' = k
    · subst h; simp [dictLookup]
    · simp only [dictLookup, if_neg h, List.map_cons, List.mem_cons, ih]
      constructor
      · exact Or.inr
      · rintro (rfl | hm)
        · exact absurd rfl h
        · exact hm

/-! Helper lemmas about the ordinal string order and the sort. -/

/-- Totality of the code-point lexicographic order. -/
theorem charListLe_total : ∀ xs ys : List Char,
    charListLe xs ys = true ∨ charListLe ys xs = true := by
  intro xs
  induction xs with
  | nil => intro ys; left; rfl
  | cons a as ih =>
    intro ys
    cases ys with
    | nil => right; rfl
    | cons b bs =>
      simp only [charListLe]
      rcases Nat.lt_trichotomy a.toNat b.toNat with h | h | h
      · left; simp [h]
      · have h1 : ¬a.toNat < b.toNat := by omega
        have h2 : ¬b.toNat < a.toNat := by omega
        rcases ih bs with h3 | h3
        · left; simp [h1, h2, h3]
        · right; simp [h1, h2, h3]
      · have h1 : ¬a.toNat < b.toNat := by omega
        right; simp [h, h1]

/-- Transitivity of the code-point lexicographic order. -/
theorem charListLe_trans : ∀ xs ys zs : List Char,
    charListLe xs ys = true → charListLe ys zs = true → charListLe xs zs = true := by
  intro xs
  induction xs with
  | nil => intro ys zs _ _; rfl
  | cons a as ih =>
    intro ys zs h1 h2
    cases ys with
    | nil => simp [charListLe] at h1
    | cons b bs =>
      cases zs with
      | nil => simp [charListLe] at h2
      | cons c cs =>
        simp only [charListLe] at h1 h2 ⊢
        by_cases hab : a.toNat < b.toNat
        · by_cases hbc : b.toNat < c.toNat
          · have hac : a.toNat < c.toNat := by omega
            simp [hac]
          · by_cases hcb : c.toNat < b.toNat
            · simp [hbc, hcb] at h2
            · have hac : a.toNat < c.toNat := by omega
              simp [hac]
        · by_cases hba : b.toNat < a.toNat
          · simp [hab, hba] at h1
          · by_cases hbc : b.toNat < c.toNat
            · have hac : a.toNat < c.toNat := by omega
              simp [hac]
            · by_cases hcb : c.toNat < b.toNat
              · simp [hbc, hcb] at h2
              · have hac : ¬a.toNat < c.toNat := by omega
                have hca : ¬c.toNat < a.toNat := by omega
                simp only [if_neg hac, if_neg hca]
                simp only [if_neg hab, if_neg hba] at h1
                simp only [if_neg hbc, if_neg hcb] at h2
                exact ih bs cs h1 h2

/-- Totality of `strLeB`. -/
theorem strLeB_total (a b : String) : strLeB a b = true ∨ strLeB b a = true :=
  charListLe_total _ _

/-- Transitivity of `strLeB`. -/
theorem strLeB_trans {a b c : String} (h1 : strLeB a b = true)
    (h2 : strLeB b c = true) : strLeB a c = true :=
  charListLe_trans _ _ _ h1 h2

/-- Inserting into the sorted list is a permutation of consing. -/
theorem insertSorted_perm (d : ErrorData) (l : List ErrorData) :
    (insertSorted d l).Perm (d :: l) := by
  induction l with
  | nil => exact List.Perm.refl _
  | cons e rest ih =>
    by_cases h : strLeB d.id e.id
    · simp [insertSorted, h]
    · simp only [insertSorted, if_neg h]
      exact (ih.cons e).trans (List.Perm.swap d e rest)

/-- Sorting permutes the record list. -/
theorem sortErrors_perm (l : List ErrorData) : (sortErrors l).Perm l := by
  induction l with
  | nil => exact List.Perm.refl _
  | cons d rest ih =>
    exact (insertSorted_perm d (sortErrors rest)).trans (ih.cons d)

/-- Inserting preserves sortedness by `id`. -/
theorem insertSorted_pairwise (d : ErrorData) (l : List ErrorData)
    (h : l.Pairwise (fun x y => strLeB x.id y.id = true)) :
    (insertSorted d l).Pairwise (fun x y => strLeB x.id y.id = true) := by
  induction l with
  | nil => simp [insertSorted]
  | cons e rest ih =>
    rcases List.pairwise_cons.1 h with ⟨he, hrest⟩
    by_cases hde : strLeB d.id e.id
    · simp only [insertSorted, if_pos hde]
      refine List.pairwise_cons.2 ⟨?_, h⟩
      intro x hx
      rcases List.mem_cons.1 hx with rfl | hx
      · exact hde
      · exact strLeB_trans hde (he x hx)
    · simp only [insertSorted, if_neg hde]
      refine List.pairwise_cons.2 ⟨?_, ih hrest⟩
      intro x hx
      have hx' : x ∈ d :: rest := (insertSorted_perm d rest).subset hx
      rcases List.mem_cons.1 hx' with rfl | hx''
      · rcases strLeB_total x.id e.id with h1 | h2
        · exact absurd h1 hde
        · exact h2
      · exact he x hx''

/-- The sorted catalog is pairwise ascending by `id`. -/
theorem sortErrors_pairwise (l : List ErrorData) :
    (sortErrors l).Pairwise (fun x y => strLeB x.id y.id = true) := by
  induction l with
  | nil => simp [sortErrors]
  | cons d rest ih => exact insertSorted_pairwise d _ ih

/-! Helper lemmas about the ingestion loop. -/

/-- A record built by `processRow` never carries the noise signature. -/
theorem processRow_ok_not_noise {pts : String → Option Int} {pj : String → Option Json}
    {a : List (String × Bool)} {row : List String} {d : ErrorData}
    (h : processRow pts pj a row = .ok d) :
    strContains d.error_full noiseSignature = false := by
  rcases row with _ | ⟨c0, _ | ⟨c1, rest⟩⟩
  · simp [processRow] at h
  · simp [processRow] at h
  · cases hts : pts c0 with
    | none => simp [processRow, hts] at h
    | some ts =>
      cases hv : (pj c1).bind DataDogMessage.validate with
      | none => simp [processRow, hts, hv] at h
      | some msg =>
        cases hn : strContains msg.error.message noiseSignature with
        | true => simp [processRow, hts, hv, hn] at h
        | false =>
          simp only [processRow, hts, hv, hn, Bool.false_eq_true, if_false] at h
          injection h with h
          subst h
          simpa using hn

/-- The dictionary built by the loop depends on neither the line counter
nor the log accumulated so far. -/
theorem loop_fst_congr (pts : String → Option Int) (pj : String → Option Json)
    (a : List (String × Bool)) :
    ∀ (rows : List (List String)) (n m : Nat) (dict : List (String × ErrorData))
      (logs logs' : List Warning),
      (load_errors_loop pts pj a rows n dict logs).1 =
        (load_errors_loop pts pj a rows m dict logs').1 := by
  intro rows
  induction rows with
  | nil => intros; rfl
  | cons row rest ih =>
    intro n m dict logs logs'
    cases h : processRow pts pj a row <;> simp only [load_errors_loop, h] <;> apply ih

/-- Loop step on a row that fails timestamp parsing: log and continue. -/
theorem loop_cons_badTimestamp {pts : String → Option Int} {pj : String → Option Json}
    {a : List (String × Bool)} {row : List String} {c : String}
    (h : processRow pts pj a row = .badTimestamp c)
    (ys : List (List String)) (n : Nat) (dict : List (String × ErrorData))
    (logs : List Warning) :
    load_errors_loop pts pj a (row :: ys) n dict logs =
      load_errors_loop pts pj a ys (n + 1) dict (logs ++ [Warning.badTimestamp n c]) := by
  simp only [load_errors_loop, h]

/-- Loop step on a row whose payload fails to parse or validate: log and
continue. -/
theorem loop_cons_badJson {pts : String → Option Int} {pj : String → Option Json}
    {a : List (String × Bool)} {row : List String} {c : String}
    (h : processRow pts pj a row = .badJson c)
    (ys : List (List String)) (n : Nat) (dict : List (String × ErrorData))
    (logs : List Warning) :
    load_errors_loop pts pj a (row :: ys) n dict logs =
      load_errors_loop pts pj a ys (n + 1) dict (logs ++ [Warning.badJson n c]) := by
  simp only [load_errors_loop, h]

/-- Loop step on a noise row: silently continue. -/
theorem loop_cons_noise {pts : String → Option Int} {pj : String → Option Json}
    {a : List (String × Bool)} {row : List String}
    (h : processRow pts pj a row = .noise)
    (ys : List (List String)) (n : Nat) (dict : List (String × ErrorData))
    (logs : List Warning) :
    load_errors_loop pts pj a (row :: ys) n dict logs =
      load_errors_loop pts pj a ys (n + 1) dict logs := by
  simp only [load_errors_loop, h]

/-- Loop step on a valid row: merge into the dictionary and continue. -/
theorem loop_cons_ok {pts : String → Option Int} {pj : String → Option Json}
    {a : List (String × Bool)} {row : List String} {d : ErrorData}
    (h : processRow pts pj a row = .ok d)
    (ys : List (List String)) (n : Nat) (dict : List (String × ErrorData))
    (logs : List Warning) :
    load_errors_loop pts pj a (row :: ys) n dict logs =
      load_errors_loop pts pj a ys (n + 1)
        (if (match dictLookup dict d.id with
             | none => true
             | some old => decide (d.timestamp > old.timestamp)) then
          dictUpdate dict d.id d
        else dict) logs := by
  simp only [load_errors_loop, h]

/-- Removing any row that does not produce a record (too short, bad
timestamp, bad payload, or noise) leaves the final dictionary unchanged. -/
theorem loop_fst_skip_removal {pts : String → Option Int} {pj : String → Option Json}
    {a : List (String × Bool)} {r : List String}
    (hr : ∀ d, processRow pts pj a r ≠ .ok d) :
    ∀ (xs ys : List (List String)) (n : Nat) (dict : List (String × ErrorData))
      (logs : List Warning),
      (load_errors_loop pts pj a (xs ++ r :: ys) n dict logs).1 =
        (load_errors_loop pts pj a (xs ++ ys) n dict logs).1 := by
  intro xs
  induction xs with
  | nil =>
    intro ys n dict logs
    cases h : processRow pts pj a r with
    | ok d => exact absurd h (hr d)
    | tooShort =>
      simp only [List.nil_append, load_errors_loop, h]
      exact loop_fst_congr pts pj a ys _ _ dict _ _
    | badTimestamp c =>
      simp only [List.nil_append, load_errors_loop, h]
      exact loop_fst_congr pts pj a ys _ _ dict _ _
    | badJson c =>
      simp only [List.nil_append, load_errors_loop, h]
      exact loop_fst_congr pts pj a ys _ _ dict _ _
    | noise =>
      simp only [List.nil_append, load_errors_loop, h]
      exact loop_fst_congr pts pj a ys _ _ dict _ _
  | cons x xs ih =>
    intro ys n dict logs
    cases h : processRow pts pj a x <;>
      simp only [List.cons_append, load_errors_loop, h] <;> apply ih

/-- Main loop invariant: each dictionary pair is keyed by its record's
identity and is noise-free, keys stay distinct, and the final key set is
the starting key set together with the identities of the valid rows. -/
theorem loop_invariant (pts : String → Option Int) (pj : String → Option Json)
    (a : List (String × Bool)) :
    ∀ (rows : List (List String)) (n : Nat) (dict : List (String × ErrorData))
      (logs : List Warning),
      (∀ p ∈ dict, (p : String × ErrorData).2.id = p.1 ∧
        strContains p.2.error_full noiseSignature = false) →
      (dict.map Prod.fst).Nodup →
      ((∀ p ∈ (load_errors_loop pts pj a rows n dict logs).1,
          (p : String × ErrorData).2.id = p.1 ∧
          strContains p.2.error_full noiseSignature = false) ∧
        ((load_errors_loop pts pj a rows n dict logs).1.map Prod.fst).Nodup ∧
        (∀ k, k ∈ (load_errors_loop pts pj a rows n dict logs).1.map Prod.fst ↔
          k ∈ dict.map Prod.fst ∨ ∃ row ∈ rows, rowId pts pj a row = some k)) := by
  intro rows
  induction rows with
  | nil =>
    intro n dict logs h1 h2
    refine ⟨h1, h2, fun k => ?_⟩
    simp [load_errors_loop]
  | cons row rest ih =>
    intro n dict logs h1 h2
    cases h : processRow pts pj a row with
    | tooShort =>
      simp only [load_errors_loop, h]
      obtain ⟨g1, g2, g3⟩ := ih (n + 1) dict logs h1 h2
      refine ⟨g1, g2, fun k => ?_⟩
      rw [g3 k]
      simp [rowId, h]
    | badTimestamp c =>
      simp only [load_errors_loop, h]
      obtain ⟨g1, g2, g3⟩ := ih (n + 1) dict (logs ++ [Warning.badTimestamp n c]) h1 h2
      refine ⟨g1, g2, fun k => ?_⟩
      rw [g3 k]
      simp [rowId, h]
    | badJson c =>
      simp only [load_errors_loop, h]
      obtain ⟨g1, g2, g3⟩ := ih (n + 1) dict (logs ++ [Warning.badJson n c]) h1 h2
      refine ⟨g1, g2, fun k => ?_⟩
      rw [g3 k]
      simp [rowId, h]
    | noise =>
      simp only [load_errors_loop, h]
      obtain ⟨g1, g2, g3⟩ := ih (n + 1) dict logs h1 h2
      refine ⟨g1, g2, fun k => ?_⟩
      rw [g3 k]
      simp [rowId, h]
    | ok d =>
      have hnew : ∀ p ∈ dictUpdate dict d.id d, (p : String × ErrorData).2.id = p.1 ∧
          strContains p.2.error_full noiseSignature = false := by
        intro p hp
        rcases mem_dictUpdate hp with rfl | hp'
        · exact ⟨rfl, processRow_ok_not_noise h⟩
        · exact h1 p hp'
      cases hl : dictLookup dict d.id with
      | none =>
        have hstep : load_errors_loop pts pj a (row :: rest) n dict logs =
            load_errors_loop pts pj a rest (n + 1) (dictUpdate dict d.id d) logs := by
          rw [loop_cons_ok h, hl]
          rfl
        rw [hstep]
        obtain ⟨g1, g2, g3⟩ :=
          ih (n + 1) (dictUpdate dict d.id d) logs hnew (nodup_keys_dictUpdate dict d.id d h2)
        refine ⟨g1, g2, fun k => ?_⟩
        rw [g3 k, mem_keys_dictUpdate]
        constructor
        · rintro ((rfl | hk) | ⟨r, hr, hrk⟩)
          · exact Or.inr ⟨row, List.mem_cons_self _ _, by simp [rowId, h]⟩
          · exact Or.inl hk
          · exact Or.inr ⟨r, List.mem_cons_of_mem _ hr, hrk⟩
        · rintro (hk | ⟨r, hr, hrk⟩)
          · exact Or.inl (Or.inr hk)
          · rcases List.mem_cons.1 hr with rfl | hr'
            · simp only [rowId, h, Option.some.injEq] at hrk
              exact Or.inl (Or.inl hrk.symm)
            · exact Or.inr ⟨r, hr', hrk⟩
      | some old =>
        by_cases ht : d.timestamp > old.timestamp
        · have hstep : load_errors_loop pts pj a (row :: rest) n dict logs =
              load_errors_loop pts pj a rest (n + 1) (dictUpdate dict d.id d) logs := by
            rw [loop_cons_ok h, hl]
            simp [ht]
          rw [hstep]
          obtain ⟨g1, g2, g3⟩ :=
            ih (n + 1) (dictUpdate dict d.id d) logs hnew (nodup_keys_dictUpdate dict d.id d h2)
          refine ⟨g1, g2, fun k => ?_⟩
          rw [g3 k, mem_keys_dictUpdate]
          constructor
          · rintro ((rfl | hk) | ⟨r, hr, hrk⟩)
            · exact Or.inr ⟨row, List.mem_cons_self _ _, by simp [rowId, h]⟩
            · exact Or.inl hk
            · exact Or.inr ⟨r, List.mem_cons_of_mem _ hr, hrk⟩
          · rintro (hk | ⟨r, hr, hrk⟩)
            · exact Or.inl (Or.inr hk)
            · rcases List.mem_cons.1 hr with rfl | hr'
              · simp only [rowId, h, Option.some.injEq] at hrk
                exact Or.inl (Or.inl hrk.symm)
              · exact Or.inr ⟨r, hr', hrk⟩
        · have hde : d.id ∈ dict.map Prod.fst :=
            (dictLookup_isSome_iff dict d.id).1 (by simp [hl])
          have hstep : load_errors_loop pts pj a (row :: rest) n dict logs =
              load_errors_loop pts pj a rest (n + 1) dict logs := by
            rw [loop_cons_ok h, hl]
            simp [ht]
          rw [hstep]
          obtain ⟨g1, g2, g3⟩ := ih (n + 1) dict logs h1 h2
          refine ⟨g1, g2, fun k => ?_⟩
          rw [g3 k]
          constructor
          · rintro (hk | ⟨r, hr, hrk⟩)
            · exact Or.inl hk
            · exact Or.inr ⟨r, List.mem_cons_of_mem _ hr, hrk⟩
          · rintro (hk | ⟨r, hr, hrk⟩)
            · exact Or.inl hk
            · rcases List.mem_cons.1 hr with rfl | hr'
              · simp only [rowId, h, Option.some.injEq] at hrk
                exact Or.inl (hrk ▸ hde)
              · exact Or.inr ⟨r, hr', hrk⟩

/-! Claim theorems. -/

/-- C1: for a CSV input holding two schema-valid, non-noise rows with the
same identity and different timestamps, the catalog record for that
identity is exactly the record built from the row with the strictly
greater timestamp (hence its `error_summary` and `error_full` come from
that row), regardless of the order of the two rows in the file. -/
theorem c1_newest_timestamp_wins (pts : String → Option Int) (pj : String → Option Json)
    (a : List (String × Bool)) (r1 r2 : List String) (d1 d2 : ErrorData)
    (h1 : processRow pts pj a r1 = .ok d1) (h2 : processRow pts pj a r2 = .ok d2)
    (hid : d1.id = d2.id) (hts : d1.timestamp < d2.timestamp) :
    (load_errors pts pj a (some [r1, r2])).1 = [d2] ∧
    (load_errors pts pj a (some [r2, r1])).1 = [d2] := by
  have hts' : ¬d2.timestamp < d1.timestamp := not_lt.2 (le_of_lt hts)
  constructor
  · simp [load_errors, load_errors_loop, h1, h2, dictLookup, dictUpdate, hid, hts,
      sortErrors, insertSorted]
  · simp [load_errors, load_errors_loop, h1, h2, dictLookup, dictUpdate, hid, hts',
      sortErrors, insertSorted]

/-- C10: for a CSV input holding two schema-valid, non-noise rows with the
same identity and equal timestamps, the catalog keeps the record built from
the earlier row: the later row does not replace it, because replacement
requires a strictly greater timestamp. -/
theorem c10_equal_timestamps_first_wins (pts : String → Option Int)
    (pj : String → Option Json) (a : List (String × Bool)) (r1 r2 : List String)
    (d1 d2 : ErrorData)
    (h1 : processRow pts pj a r1 = .ok d1) (h2 : processRow pts pj a r2 = .ok d2)
    (hid : d1.id = d2.id) (hts : d1.timestamp = d2.timestamp) :
    (load_errors pts pj a (some [r1, r2])).1 = [d1] := by
  have hts' : ¬d1.timestamp < d2.timestamp := by rw [hts]; exact lt_irrefl _
  simp [load_errors, load_errors_loop, h1, h2, dictLookup, dictUpdate, hid, hts',
    sortErrors, insertSorted]

/-- C2: for every CSV input, the catalog has exactly one record per
distinct identity among the rows that pass every row-level check (at
least two cells, timestamp parse, schema validation) and are not
noise-filtered — the record ids are distinct and are exactly those
identities — and the catalog is sorted ascending by identity under
ordinal/lexicographic string comparison. -/
theorem c2_one_record_per_identity_sorted (pts : String → Option Int)
    (pj : String → Option Json) (a : List (String × Bool)) (rows : List (List String)) :
    ((load_errors pts pj a (some rows)).1.map ErrorData.id).Nodup ∧
    (∀ i, i ∈ (load_errors pts pj a (some rows)).1.map ErrorData.id ↔
      ∃ row ∈ rows, rowId pts pj a row = some i) ∧
    (load_errors pts pj a (some rows)).1.Pairwise
      (fun x y => strLeB x.id y.id = true) := by
  obtain ⟨g1, g2, g3⟩ := loop_invariant pts pj a rows 2 [] [] (by simp) (by simp)
  have hcat : (load_errors pts pj a (some rows)).1 =
      sortErrors ((load_errors_loop pts pj a rows 2 [] []).1.map Prod.snd) := rfl
  have hids : ((load_errors_loop pts pj a rows 2 [] []).1.map Prod.snd).map ErrorData.id =
      (load_errors_loop pts pj a rows 2 [] []).1.map Prod.fst := by
    rw [List.map_map]
    exact List.map_congr_left (fun p hp => (g1 p hp).1)
  have hperm :
      ((load_errors pts pj a (some rows)).1.map ErrorData.id).Perm
        ((load_errors_loop pts pj a rows 2 [] []).1.map Prod.fst) := by
    rw [hcat, ← hids]
    exact (sortErrors_perm _).map ErrorData.id
  refine ⟨hperm.nodup_iff.2 g2, fun i => ?_, ?_⟩
  · rw [hperm.mem_iff, g3 i]
    simp
  · rw [hcat]
    exact sortErrors_pairwise _

/-- Witness for C1 at concrete inputs: the `Err2` row (timestamp 2) wins in
both file orders. -/
theorem c1_newest_timestamp_wins_witness :
    (load_errors tsW pjW [] (some [["t1", "p1"], ["t2", "p2"]])).1 = [record2] ∧
    (load_errors tsW pjW [] (some [["t2", "p2"], ["t1", "p1"]])).1 = [record2] :=
  c1_newest_timestamp_wins tsW pjW [] ["t1", "p1"] ["t2", "p2"] record1 record2
    rfl rfl rfl (by decide)

/-- Witness for C10 at concrete inputs: with equal timestamps the earlier
row's record (`Err1`) is kept. -/
theorem c10_equal_timestamps_first_wins_witness :
    (load_errors tsW pjW [] (some [["t1", "p1"], ["t1b", "p3"]])).1 = [record1] :=
  c10_equal_timestamps_first_wins tsW pjW [] ["t1", "p1"] ["t1b", "p3"]
    record1 record3 rfl rfl rfl rfl

/-- C3: every row-level failure (unparsable timestamp; unparsable or
schema-invalid payload) appends a warning to the log, leaves the working
dictionary untouched, and the loop continues with the remaining rows at
the next line number; consequently the catalog of a file containing such a
row equals the catalog of the file without it — ingestion is never
aborted by a row failure (the embedded loop is total: it returns on every
input rather than raising). -/
theorem c3_row_failures_logged_and_skipped (pts : String → Option Int)
    (pj : String → Option Json) (a : List (String × Bool)) :
    (∀ (r : List String) (c : String) (ys : List (List String)) (n : Nat)
        (dict : List (String × ErrorData)) (logs : List Warning),
      processRow pts pj a r = .badTimestamp c →
        load_errors_loop pts pj a (r :: ys) n dict logs =
          load_errors_loop pts pj a ys (n + 1) dict
            (logs ++ [Warning.badTimestamp n c])) ∧
    (∀ (r : List String) (c : String) (ys : List (List String)) (n : Nat)
        (dict : List (String × ErrorData)) (logs : List Warning),
      processRow pts pj a r = .badJson c →
        load_errors_loop pts pj a (r :: ys) n dict logs =
          load_errors_loop pts pj a ys (n + 1) dict
            (logs ++ [Warning.badJson n c])) ∧
    (∀ (r : List String) (c : String) (xs ys : List (List String)),
      (processRow pts pj a r = .badTimestamp c ∨ processRow pts pj a r = .badJson c) →
        (load_errors pts pj a (some (xs ++ r :: ys))).1 =
          (load_errors pts pj a (some (xs ++ ys))).1) := by
  refine ⟨fun r c ys n dict logs h => loop_cons_badTimestamp h ys n dict logs,
    fun r c ys n dict logs h => loop_cons_badJson h ys n dict logs,
    fun r c xs ys h => ?_⟩
  have hr : ∀ d, processRow pts pj a r ≠ .ok d := by
    rcases h with h | h <;> intro d <;> simp [h]
  show sortErrors ((load_errors_loop pts pj a (xs ++ r :: ys) 2 [] []).1.map Prod.snd) = _
  rw [loop_fst_skip_removal hr]
  rfl

/-- Witness for C3 at concrete inputs: a bad-timestamp row and a bad-payload
row are each logged and skipped, and removing the bad row leaves the catalog
unchanged. -/
theorem c3_row_failures_logged_and_skipped_witness :
    (load_errors_loop tsW pjW [] (["bad", "p1"] :: [["t1", "p1"]]) 2 [] [] =
      load_errors_loop tsW pjW [] [["t1", "p1"]] (2 + 1) []
        ([] ++ [Warning.badTimestamp 2 "bad"])) ∧
    (load_errors_loop tsW pjW [] (["t1", "nope"] :: [["t1", "p1"]]) 2 [] [] =
      load_errors_loop tsW pjW [] [["t1", "p1"]] (2 + 1) []
        ([] ++ [Warning.badJson 2 "nope"])) ∧
    ((load_errors tsW pjW [] (some ([] ++ ["bad", "p1"] :: [["t1", "p1"]]))).1 =
      (load_errors tsW pjW [] (some ([] ++ [["t1", "p1"]]))).1) :=
  ⟨(c3_row_failures_logged_and_skipped tsW pjW []).1 ["bad", "p1"] "bad"
      [["t1", "p1"]] 2 [] [] rfl,
    (c3_row_failures_logged_and_skipped tsW pjW []).2.1 ["t1", "nope"] "nope"
      [["t1", "p1"]] 2 [] [] rfl,
    (c3_row_failures_logged_and_skipped tsW pjW []).2.2 ["bad", "p1"] "bad"
      [] [["t1", "p1"]] (Or.inl rfl)⟩

/-- C7: no catalog record's full error message contains the noise
signature, and a noise row never participates in the merge: removing it
from the file leaves the catalog unchanged, so it can neither displace nor
suppress another row of its identity. -/
theorem c7_noise_never_in_catalog (pts : String → Option Int)
    (pj : String → Option Json) (a : List (String × Bool)) :
    (∀ (rows : List (List String)) (d : ErrorData),
      d ∈ (load_errors pts pj a (some rows)).1 →
        strContains d.error_full noiseSignature = false) ∧
    (∀ (r : List String) (xs ys : List (List String)),
      processRow pts pj a r = .noise →
        (load_errors pts pj a (some (xs ++ r :: ys))).1 =
          (load_errors pts pj a (some (xs ++ ys))).1) := by
  constructor
  · intro rows d hd
    obtain ⟨g1, _, _⟩ := loop_invariant pts pj a rows 2 [] [] (by simp) (by simp)
    have hd' : d ∈ ((load_errors_loop pts pj a rows 2 [] []).1).map Prod.snd :=
      (sortErrors_perm _).subset hd
    obtain ⟨p, hp, rfl⟩ := List.mem_map.1 hd'
    exact (g1 p hp).2
  · intro r xs ys h
    have hr : ∀ d, processRow pts pj a r ≠ .ok d := by intro d; simp [h]
    show sortErrors ((load_errors_loop pts pj a (xs ++ r :: ys) 2 [] []).1.map Prod.snd) = _
    rw [loop_fst_skip_removal hr]
    rfl

/-- Witness for C7 at concrete inputs: the ingested record is noise-free,
and removing a noise row leaves the catalog unchanged. -/
theorem c7_noise_never_in_catalog_witness :
    strContains record1.error_full noiseSignature = false ∧
    (load_errors tsW pjW [] (some ([] ++ ["t2", "pnoise"] :: [["t1", "p1"]]))).1 =
      (load_errors tsW pjW [] (some ([] ++ [["t1", "p1"]]))).1 :=
  ⟨(c7_noise_never_in_catalog tsW pjW []).1 [["t1", "p1"]] record1 (by decide),
    (c7_noise_never_in_catalog tsW pjW []).2 ["t2", "pnoise"] [] [["t1", "p1"]] rfl⟩

/-- C5: `toggle_error_status` returns the negation of the stored flag when
the identity is present in the persisted mapping, and `true` when the
identity is absent (a first-ever toggle). -/
theorem c5_toggle_flips_or_sets_true (st : TrackerState) (error_id : String) :
    (∀ old, dictLookup st.addressed_errors error_id = some old →
      (toggle_error_status st .ok error_id).2.2 = .ok (!old)) ∧
    (dictLookup st.addressed_errors error_id = none →
      (toggle_error_status st .ok error_id).2.2 = .ok true) := by
  constructor
  · intro old h
    simp [toggle_error_status, toggledValue, save_persistence, h]
  · intro h
    simp [toggle_error_status, toggledValue, save_persistence, h]

/-- Witness for C5: toggling a stored `true` yields `false`; a first-ever
toggle yields `true`. -/
theorem c5_toggle_flips_or_sets_true_witness :
    (toggle_error_status ⟨[], [("a.py::test_x", true)]⟩ .ok "a.py::test_x").2.2 =
      .ok false ∧
    (toggle_error_status ⟨[], []⟩ .ok "a.py::test_x").2.2 = .ok true :=
  ⟨(c5_toggle_flips_or_sets_true ⟨[], [("a.py::test_x", true)]⟩ "a.py::test_x").1
      true rfl,
    (c5_toggle_flips_or_sets_true ⟨[], []⟩ "a.py::test_x").2 rfl⟩

/-- C4 (counterexample): when the persistence write raises an `IOError`
("disk full"), `toggle_error_status` still returns success (`.ok true`,
with the failure only logged by `_save_persistence`), instead of
surfacing a structured failure to the caller. -/
theorem c4_io_failure_swallowed_counterexample :
    toggle_error_status ⟨[], []⟩ (.ioError "disk full") "a.py::test_x" =
      (⟨[], [("a.py::test_x", true)]⟩, [Warning.saveFailed "disk full"],
        .ok true) := rfl

/-- C4 (amended): a persistence-write `IOError` during toggle is caught
and logged inside `_save_persistence` and toggle returns the new flag as
success — it is not surfaced to the caller — while the in-memory toggle
has taken effect; only an exception of another class propagates out of
toggle (to be reported as a structured failure by the HTTP shell), again
with the in-memory toggle in effect. -/
theorem c4_write_failure_behavior (st : TrackerState) (error_id m : String) :
    ((toggle_error_status st (.ioError m) error_id).2.2 =
        .ok (toggledValue st.addressed_errors error_id) ∧
      (toggle_error_status st (.ioError m) error_id).2.1 = [Warning.saveFailed m] ∧
      dictLookup (toggle_error_status st (.ioError m) error_id).1.addressed_errors
        error_id = some (toggledValue st.addressed_errors error_id)) ∧
    ((toggle_error_status st (.otherError m) error_id).2.2 = .error m ∧
      dictLookup (toggle_error_status st (.otherError m) error_id).1.addressed_errors
        error_id = some (toggledValue st.addressed_errors error_id)) := by
  refine ⟨⟨?_, ?_, ?_⟩, ?_, ?_⟩ <;>
    simp [toggle_error_status, save_persistence, dictLookup_update_self]

/-- C6: `_load_persistence` fails soft — a missing file yields an empty
mapping, and a readable file whose content does not parse as JSON, or
parses to a non-object, yields an empty mapping with one warning.  The
embedded function is total, so no branch raises to the caller. -/
theorem c6_load_persistence_fails_soft (parse : String → Option PersistJson) :
    (load_persistence parse .absent = ([], [])) ∧
    (∀ c, strNonBlank c = true → parse c = none →
      load_persistence parse (.readable c) = ([], [Warning.persistenceInvalidJson])) ∧
    (∀ c, strNonBlank c = true → parse c = some .nonObj →
      load_persistence parse (.readable c) = ([], [Warning.persistenceNotDict])) := by
  refine ⟨rfl, fun c hb hp => ?_, fun c hb hp => ?_⟩ <;>
    simp [load_persistence, hb, hp]

/-- Witness for C6 at concrete inputs. -/
theorem c6_load_persistence_fails_soft_witness :
    load_persistence (fun _ => none) .absent = ([], []) ∧
    load_persistence (fun _ => none) (.readable "x") =
      ([], [Warning.persistenceInvalidJson]) ∧
    load_persistence (fun _ => some .nonObj) (.readable "x") =
      ([], [Warning.persistenceNotDict]) :=
  ⟨(c6_load_persistence_fails_soft (fun _ => none)).1,
    (c6_load_persistence_fails_soft (fun _ => none)).2.1 "x" (by decide) rfl,
    (c6_load_persistence_fails_soft (fun _ => some .nonObj)).2.2 "x" (by decide) rfl⟩

/-- C8 (code refutation at the failing input): the ingestion loop iterates
over every row of the file — there is no header skip — so a file whose
first row is a valid data row yields a catalog record derived from row 0.
The `enumerate(reader, start=2)` numbering in the source presumes a
skipped header line, so the skip described by the specification is the
documented intent and the missing skip is a slip. -/
theorem c8_first_row_ingested :
    load_errors tsW pjW [] (some [["t1", "p1"]]) = ([record1], []) := rfl

/-- C9 (counterexample): a row whose payload parses but lacks the required
`test.source.file` field is rejected by schema validation — the catalog is
empty and a validation warning is logged — rather than producing a record
with `file = "unknown"`. -/
theorem c9_missing_field_defaults_counterexample :
    load_errors tsW pjW [] (some [["t1", "pmiss"]]) =
      ([], [Warning.badJson 2 "pmiss"]) := rfl

/-- C9 (amended): the pydantic models of this source are strict — `file`
and `name` are required fields with no defaults — so a row whose payload
parses but lacks `test.source.file` or `test.name` fails validation and is
skipped as a bad-payload row; no defaulting to `"unknown"` occurs. -/
theorem c9_missing_fields_rejected (pts : String → Option Int)
    (pj : String → Option Json) (a : List (String × Bool)) (c0 c1 : String)
    (rest : List String) (ts : Int) (j t : Json)
    (h0 : pts c0 = some ts) (h1 : pj c1 = some j)
    (hjt : j.get "test" = some t)
    (hmiss : (∃ s, t.get "source" = some s ∧ s.get "file" = none) ∨
      t.get "name" = none) :
    processRow pts pj a (c0 :: c1 :: rest) = .badJson c1 := by
  have hval : DataDogMessage.validate j = none := by
    rcases hmiss with ⟨s, hs, hf⟩ | hn
    · have hsv : TestSource.validate s = none := by simp [TestSource.validate, hf]
      simp [DataDogMessage.validate, hjt, TestInfo.validate, hs, hsv]
    · cases hsrc : t.get "source" with
      | none => simp [DataDogMessage.validate, hjt, TestInfo.validate, hsrc]
      | some s =>
        cases hv : TestSource.validate s with
        | none => simp [DataDogMessage.validate, hjt, TestInfo.validate, hsrc, hv]
        | some src =>
          simp [DataDogMessage.validate, hjt, TestInfo.validate, hsrc, hv, hn]
  simp [processRow, h0, h1, hval]

/-- Witness for the amended C9 at a concrete input. -/
theorem c9_missing_fields_rejected_witness :
    processRow tsW pjW [] ("t1" :: "pmiss" :: []) = .badJson "pmiss" :=
  c9_missing_fields_rejected tsW pjW [] "t1" "pmiss" [] 1 payloadMissingFile
    (Json.obj [("source", Json.obj []), ("name", Json.str "test_x")]) rfl rfl rfl
    (Or.inl ⟨Json.obj [], rfl, rfl⟩)

end DatadogViewer
